import Mathlib

/-!
Verification development for the stream-compare library (src/index.js and
src/lib/make-incremental.js).  The JavaScript engine is shallowly embedded:
each definition mirrors the control flow of the function of the same name in
the source.  The event-driven engine is modelled as a step function over an
explicit engine-state record, driven by a trace of source notifications.
-/

namespace StreamCompare

/-- Model of the JavaScript values that flow through comparator results,
thrown values and event arguments.  Object identity is modelled by a numeric
tag.  (NaN is not modelled; it plays no role in the claims.) -/
inductive JSVal where
  | vUndefined
  | vNull
  | vBool (b : Bool)
  | vNum (n : Int)
  | vStr (s : String)
  | vObj (id : Nat)
deriving DecidableEq

/-- JavaScript falsiness of a `JSVal` (undefined, null, false, 0 and the
empty string are falsy; objects are always truthy). -/
def JSVal.falsy : JSVal → Bool
  | .vUndefined => true
  | .vNull => true
  | .vBool b => !b
  | .vNum n => n == 0
  | .vStr s => s == ""
  | .vObj _ => false

/-- A chunk read from a stream: a string, a Buffer (byte sequence), or any
other value (possible when the underlying stream is in objectMode). -/
inductive Chunk where
  | str (s : List Char)
  | buf (b : List Nat)
  | other (v : JSVal)
deriving DecidableEq

/-- The `data` field of a `StreamState`: `undef` until the first chunk
arrives, then a string, a Buffer, or (in objectMode) an array of chunks. -/
inductive StateData where
  | undef
  | str (s : List Char)
  | buf (b : List Nat)
  | arr (l : List Chunk)
deriving DecidableEq

/-- An entry of the `events` log: `{name: eventName, args: [...]}` as pushed
by the per-event listener in the engine. -/
structure EventRecord where
  name : String
  args : List JSVal
deriving DecidableEq

/-- `StreamState` from src/index.js lines 75-88: caller-visible per-stream
state accumulated by the engine. -/
structure StreamState where
  ended : Bool := false
  events : List EventRecord := []
  data : StateData := .undef
  totalDataLen : Nat := 0
deriving DecidableEq

/-- The distinct `TypeError`s that `addData` can raise (src/index.js lines
388-390 and 415-419), plus the runtime `TypeError` that calling `push` on a
non-array would raise in the (unreachable) objectMode-with-scalar-data case. -/
inductive AddDataError where
  /-- expected string or Buffer, got ... . Need objectMode? -/
  | notStringOrBuffer
  /-- read returned ..., previously ... . Need objectMode? -/
  | typeMismatch
  /-- this.data.push is not a function (push on a non-array value) -/
  | noPushMethod
deriving DecidableEq

/-- `addData` from src/index.js lines 380-421, as a fallible state update.
The branch structure follows the source: objectMode appends to an array
(`!this.data` is JS-falsy exactly for undefined and the empty string);
otherwise non-string/non-Buffer chunks are rejected, first chunks are stored
directly, like-typed chunks concatenate (the empty-operand fast paths of
the source produce the same concatenation), and mixed types raise a TypeError. -/
def addData (objectMode : Bool) (st : StreamState) (d : Chunk) :
    Except AddDataError StreamState :=
  if objectMode then
    match st.data with
    | .undef => .ok { st with data := .arr [d], totalDataLen := st.totalDataLen + 1 }
    | .str s =>
        if s = [] then
          .ok { st with data := .arr [d], totalDataLen := st.totalDataLen + 1 }
        else .error .noPushMethod
    | .buf _ => .error .noPushMethod
    | .arr l => .ok { st with data := .arr (l ++ [d]), totalDataLen := st.totalDataLen + 1 }
  else
    match d with
    | .other _ => .error .notStringOrBuffer
    | .str t =>
        match st.data with
        | .undef => .ok { st with data := .str t, totalDataLen := st.totalDataLen + t.length }
        | .str s => .ok { st with data := .str (s ++ t), totalDataLen := st.totalDataLen + t.length }
        | _ => .error .typeMismatch
    | .buf c =>
        match st.data with
        | .undef => .ok { st with data := .buf c, totalDataLen := st.totalDataLen + c.length }
        | .buf b => .ok { st with data := .buf (b ++ c), totalDataLen := st.totalDataLen + c.length }
        | _ => .error .typeMismatch

/-- One of the two compared streams. -/
inductive Src where
  | s1
  | s2
deriving DecidableEq

/-- `CompareType` from src/index.js lines 16-23. -/
inductive CompareType where
  | checkpoint
  | incremental
  | last
deriving DecidableEq

/-- `ReadPolicy` from src/index.js lines 28-41. -/
inductive ReadPolicy where
  | flowing
  | least
  | none
deriving DecidableEq

/-- Outcome of invoking a caller-supplied comparator: it either returns a
value or throws one. -/
inductive COutcome where
  | ret (v : JSVal)
  | thrown (v : JSVal)
deriving DecidableEq

/-- A comparator receives the two stream states by reference and may mutate
them (for example to truncate compared data), so it is modelled as returning
an outcome together with the updated states. -/
def Comparator : Type :=
  StreamState → StreamState → COutcome × StreamState × StreamState

/-- An error value delivered through the comparison error channel: either a
JavaScript value thrown by a comparator / emitted by a stream, or one of the
engine-raised `addData` TypeErrors (always truthy Error objects). -/
inductive ErrVal where
  | jsv (v : JSVal)
  | typeErr (e : AddDataError)
deriving DecidableEq

/-- JS falsiness of a delivered error value (TypeError objects are truthy). -/
def ErrVal.falsy : ErrVal → Bool
  | .jsv v => v.falsy
  | .typeErr _ => false

/-- The events the `StreamComparison` EventEmitter can emit: at most one
`data` or `error` and exactly one `end` per the class documentation
(src/index.js lines 90-108). -/
inductive Emission where
  | dataE (v : JSVal)
  | errorE (e : ErrVal)
  | endE
deriving DecidableEq

/-- Validated engine configuration, after src/index.js lines 127-173 have
merged `DEFAULT_OPTIONS` and checked the option shapes.  `endEvents` records
an option-bag entry of that name: the option bag is copied wholesale by
`extend`, but nothing in src/index.js ever reads a key named endEvents, as
the theorems for claim C2 establish. -/
structure EngineOpts where
  compare : Comparator
  incremental : Option Comparator := Option.none
  events : List String := ["close", "end", "error"]
  abortOnError : Bool := false
  objectMode : Bool := false
  readPolicy : ReadPolicy := .least
  delay : Nat := 0
  endEvents : Option (List String) := Option.none

/-- Mutable engine bookkeeping from the `StreamComparison` constructor body:
the two states, the `ended` counter, the `isDone` flag, whether `done()` has
unregistered the removable listeners (`detached`), whether a final compare
is scheduled via setImmediate/setTimeout (`pendingFinal`), and the emission
log of the comparison EventEmitter. -/
structure Engine where
  state1 : StreamState := {}
  state2 : StreamState := {}
  endedCount : Nat := 0
  isDone : Bool := false
  detached : Bool := false
  pendingFinal : Bool := false
  emissions : List Emission := []
deriving DecidableEq

/-- Read the state of one source. -/
def Engine.stateOf (e : Engine) : Src → StreamState
  | .s1 => e.state1
  | .s2 => e.state2

/-- Replace the state of one source. -/
def Engine.setState (e : Engine) : Src → StreamState → Engine
  | .s1, st => { e with state1 := st }
  | .s2, st => { e with state2 := st }

/-- `done` from src/index.js lines 194-222: set `isDone`, unregister every
removable listener (the flowing-mode data listeners are NOT in any of the
removed sets, which matters for claim C1), cancel any scheduled final
compare, and emit the `end` event. -/
def done (e : Engine) : Engine :=
  { e with
    isDone := true
    detached := true
    pendingFinal := false
    emissions := e.emissions ++ [.endE] }

/-- Core of `doCompare` (src/index.js lines 230-253) once the comparator has
produced its outcome on the (possibly mutated) states: a returned value that
is neither undefined nor null is emitted as `data`; a thrown value is
emitted as `error`; a result, an error, or a `last`-type compare finishes
the comparison.  Returns the engine and whether the compare concluded. -/
def doCompareStep (out : COutcome) (type : CompareType) (e : Engine) :
    Engine × Bool :=
  match out with
  | .ret v =>
      if v ≠ .vUndefined ∧ v ≠ .vNull then
        (done { e with emissions := e.emissions ++ [.dataE v] }, true)
      else if type = .last then
        (done e, true)
      else (e, false)
  | .thrown v =>
      (done { e with emissions := e.emissions ++ [.errorE (.jsv v)] }, true)

/-- `doCompare` from src/index.js lines 230-253: run the comparator on the
current states, store the states it returns, then conclude per
`doCompareStep`. -/
def doCompare (c : Comparator) (type : CompareType) (e : Engine) :
    Engine × Bool :=
  let (out, s1, s2) := c e.state1 e.state2
  doCompareStep out type { e with state1 := s1, state2 := s2 }

/-- The per-event listener body (src/index.js lines 289-298): append the
event record to the state of the emitting source and, when an incremental
comparator is configured, run it. -/
def eventListenerBody (opts : EngineOpts) (e : Engine) (i : Src)
    (name : String) (args : List JSVal) : Engine :=
  let st := e.stateOf i
  let e := e.setState i { st with events := st.events ++ [⟨name, args⟩] }
  match opts.incremental with
  | some inc => (doCompare inc .incremental e).1
  | Option.none => e

/-- Whether the logging listener for `name` was registered on the streams
(src/index.js lines 279-311): once per distinct name of `options.events`,
skipping `error` when `abortOnError` is set. -/
def eventRegistered (opts : EngineOpts) (name : String) : Bool :=
  name ∈ opts.events && !(opts.abortOnError && name == "error")

/-- `endListener` from src/index.js lines 317-350: ignore repeats and
post-resolution calls; otherwise mark the source ended, count it, run the
incremental comparator if any, and when both sources have ended schedule the
final compare (setImmediate / setTimeout, modelled by `pendingFinal`). -/
def endListener (opts : EngineOpts) (e : Engine) (i : Src) : Engine :=
  if (e.stateOf i).ended || e.isDone then e
  else
    let e := e.setState i { e.stateOf i with ended := true }
    let e := { e with endedCount := e.endedCount + 1 }
    let (e, concluded) :=
      match opts.incremental with
      | some inc => doCompare inc .incremental e
      | Option.none => (e, false)
    if concluded then e
    else if e.endedCount = 2 then { e with pendingFinal := true }
    else e

/-- `handleData` from src/index.js lines 426-441: accumulate the chunk via
`addData`; on a TypeError emit it and finish; otherwise run the incremental
comparator if one is configured.  Note there is no `isDone` guard. -/
def handleData (opts : EngineOpts) (e : Engine) (i : Src) (d : Chunk) :
    Engine :=
  match addData opts.objectMode (e.stateOf i) d with
  | .error err =>
      done { e with emissions := e.emissions ++ [.errorE (.typeErr err)] }
  | .ok st =>
      let e := e.setState i st
      match opts.incremental with
      | some inc => (doCompare inc .incremental e).1
      | Option.none => e

/-- An externally observable occurrence driving the engine: a `data` chunk,
an `end` event, an `error` event, any other named notification from one of
the sources, or the firing of the scheduled final-compare timer
(setImmediate / setTimeout callback `postEndCompare`). -/
inductive SrcEvent where
  | dataEvt (i : Src) (d : Chunk)
  | endEvt (i : Src)
  | errorEvt (i : Src) (v : JSVal)
  | namedEvt (i : Src) (name : String) (args : List JSVal)
  | tick
deriving DecidableEq

/-- Dispatch of one occurrence to the listeners the engine registered, in
registration order (src/index.js lines 279-311, 355-368, 493-510).  The
logging listeners, `endListener` and the abort error listener fire only
while not unregistered by `done` (`detached`); the flowing-mode data
listeners registered at line 496-497 are never unregistered, so they fire
regardless of `detached`.  Reads performed under the `least` policy are
modelled separately by `readNext`. -/
def dispatch (opts : EngineOpts) (e : Engine) (ev : SrcEvent) : Engine :=
  match ev with
  | .namedEvt i name args =>
      if !e.detached && eventRegistered opts name then
        eventListenerBody opts e i name args
      else e
  | .dataEvt i d =>
      let e1 :=
        if !e.detached && eventRegistered opts "data" then
          eventListenerBody opts e i "data" []
        else e
      if opts.readPolicy = .flowing then handleData opts e1 i d else e1
  | .endEvt i =>
      if e.detached then e
      else
        let e1 :=
          if eventRegistered opts "end" then eventListenerBody opts e i "end" []
          else e
        endListener opts e1 i
  | .errorEvt i v =>
      if e.detached then e
      else if opts.abortOnError then
        -- onStreamError (src/index.js lines 224-228)
        done { e with emissions := e.emissions ++ [.errorE (.jsv v)] }
      else
        let e1 :=
          if eventRegistered opts "error" then
            eventListenerBody opts e i "error" [v]
          else e
        endListener opts e1 i
  | .tick =>
      if e.pendingFinal then
        (doCompare opts.compare .last { e with pendingFinal := false }).1
      else e

/-- Run the engine over a trace of occurrences. -/
def run (opts : EngineOpts) (e : Engine) : List SrcEvent → Engine
  | [] => e
  | ev :: tr => run opts (dispatch opts e ev) tr

/-- The `checkpoint` method (src/index.js lines 257-264). -/
def checkpointFn (opts : EngineOpts) (e : Engine) : Engine :=
  if e.isDone then e else (doCompare opts.compare .checkpoint e).1

/-- The `end` method (src/index.js lines 269-276); named `endFn` because
`end` is reserved in Lean. -/
def endFn (opts : EngineOpts) (e : Engine) : Engine :=
  if e.isDone then e else (doCompare opts.compare .last e).1

/-- Number of result deliveries (`data` or `error` emissions) in the log:
the comparison settles once for each of these. -/
def settlements (e : Engine) : Nat :=
  (e.emissions.filter fun em =>
    match em with
    | .dataE _ => true
    | .errorE _ => true
    | .endE => false).length

/-- What the error handler of `streamCompare` (src/index.js lines 609-620)
passes to the callback: the original error if truthy, otherwise a fresh
truthy Error whose `cause` field holds the original falsy value. -/
inductive DeliveredErr where
  | raw (e : ErrVal)
  | wrapped (cause : ErrVal)
deriving DecidableEq

/-- One invocation of the callback passed to `streamCompare`: success with a
value, or failure with a (possibly wrapped) error. -/
inductive CallbackCall where
  | success (v : JSVal)
  | failure (e : DeliveredErr)
deriving DecidableEq

/-- The wrapping convention of src/index.js lines 612-617. -/
def truthify (e : ErrVal) : DeliveredErr :=
  if e.falsy then .wrapped e else .raw e

/-- A `DeliveredErr` is always truthy: `wrapped` is a fresh Error object and
`raw` is only used for truthy originals. -/
def DeliveredErr.truthy : DeliveredErr → Bool
  | .wrapped _ => true
  | .raw e => !e.falsy

/-- One emission handled by the `streamCompare` listeners (src/index.js
lines 604-625), threading the accumulated callback invocations and the
`didCallback` flag: a `data` emission calls back with the result, an
`error` emission calls back with the truthified error, and the `end`
emission calls back with no arguments only if no callback happened yet. -/
def cbStep (acc : List CallbackCall × Bool) (em : Emission) :
    List CallbackCall × Bool :=
  match em with
  | .dataE v => (acc.1 ++ [.success v], true)
  | .errorE e => (acc.1 ++ [.failure (truthify e)], true)
  | .endE => if acc.2 then acc else (acc.1 ++ [.success .vUndefined], acc.2)

/-- The sequence of callback invocations the `streamCompare` listeners
perform for a given emission log. -/
def callbackCalls (ems : List Emission) : List CallbackCall :=
  (ems.foldl cbStep ([], false)).1

/-- The stream-selection condition at the top of the `readNext` loop
(src/index.js lines 450-460): prefer stream1 while it has not ended and
either stream2 has ended or stream1 has read no more data; otherwise
stream2 if it has not ended; otherwise no stream is read. -/
def selectSource (st1 st2 : StreamState) : Option Src :=
  if !st1.ended && (st2.ended || st1.totalDataLen ≤ st2.totalDataLen) then
    some .s1
  else if !st2.ended then some .s2
  else Option.none

/-- Result of a `readNext` loop execution: the engine, the chunks still
queued on each stream, the log of pulls performed (each tagged with the
pulled streams `ended` flag at the moment of the pull), and the stream the
loop is waiting on via a `readable` listener, if any. -/
structure ReadResult where
  eng : Engine
  rest1 : List Chunk
  rest2 : List Chunk
  pulls : List (Src × Bool)
  waiting : Option Src
deriving DecidableEq

/-- `readNext` from src/index.js lines 446-471: while the comparison is not
done, select a stream per `selectSource`; a `read()` returning data is fed
to `handleData` and the loop continues; a `read()` returning null (empty
queue) registers a once-`readable` listener on that stream and stops.  The
queues hold the chunks each stream has available to synchronous reads. -/
def readNext (opts : EngineOpts) (e : Engine) (q1 q2 : List Chunk) :
    ReadResult :=
  match e.isDone, selectSource e.state1 e.state2, q1, q2 with
  | true, _, q1, q2 => ⟨e, q1, q2, [], Option.none⟩
  | false, Option.none, q1, q2 => ⟨e, q1, q2, [], Option.none⟩
  | false, some .s1, [], q2 => ⟨e, [], q2, [], some .s1⟩
  | false, some .s1, d :: q1', q2 =>
      let r := readNext opts (handleData opts e .s1 d) q1' q2
      ⟨r.eng, r.rest1, r.rest2, (Src.s1, e.state1.ended) :: r.pulls,
        r.waiting⟩
  | false, some .s2, q1, [] => ⟨e, q1, [], [], some .s2⟩
  | false, some .s2, q1, d :: q2' =>
      let r := readNext opts (handleData opts e .s2 d) q1 q2'
      ⟨r.eng, r.rest1, r.rest2, (Src.s2, e.state2.ended) :: r.pulls,
        r.waiting⟩
termination_by q1.length + q2.length
decreasing_by
  all_goals simp

/-- Duck-typed `length` of a data value: `values ? values.length : 0` from
src/lib/make-incremental.js (undefined contributes 0; the falsy empty
string also has length 0, so the expression equals the length whenever the
value is defined). -/
def sdLen : StateData → Nat
  | .undef => 0
  | .str s => s.length
  | .buf b => b.length
  | .arr l => l.length

/-- The guard `values && values.length !== 0`: false for undefined, false
for the (falsy) empty string, and false for empty (but truthy) Buffers and
Arrays because of the length test — so true exactly for a defined,
non-empty value. -/
def sdHasItems : StateData → Bool
  | .undef => false
  | .str s => !s.isEmpty
  | .buf b => !b.isEmpty
  | .arr l => !l.isEmpty

/-- `values.slice(0, n)` on a data value. -/
def sdTake (n : Nat) : StateData → StateData
  | .undef => .undef
  | .str s => .str (s.take n)
  | .buf b => .buf (b.take n)
  | .arr l => .arr (l.take n)

/-- `values.slice(n)` on a data value. -/
def sdDrop (n : Nat) : StateData → StateData
  | .undef => .undef
  | .str s => .str (s.drop n)
  | .buf b => .buf (b.drop n)
  | .arr l => .arr (l.drop n)

/-- `incrementalProp` from src/lib/make-incremental.js lines 9-37,
instantiated at propName `data`.  The comparison function receives the
(duck-typed) data values and may return or throw; an absent (null or
undefined) result with a nonzero common length truncates both states down
to the remainder beyond that length. -/
def incrementalPropData (cmp : StateData → StateData → COutcome)
    (s1 s2 : StreamState) : COutcome × StreamState × StreamState :=
  let v1 := s1.data
  let v2 := s2.data
  if (sdHasItems v1 || s1.ended) && (sdHasItems v2 || s2.ended) then
    let minLen := min (sdLen v1) (sdLen v2)
    let out :=
      if sdLen v1 > minLen ∧ s2.ended = false then cmp (sdTake minLen v1) v2
      else if sdLen v2 > minLen ∧ s1.ended = false then cmp v1 (sdTake minLen v2)
      else cmp v1 v2
    match out with
    | .thrown v => (.thrown v, s1, s2)
    | .ret r =>
        if 0 < minLen ∧ (r = .vNull ∨ r = .vUndefined) then
          (.ret r, { s1 with data := sdDrop minLen v1 },
            { s2 with data := sdDrop minLen v2 })
        else (.ret r, s1, s2)
  else (.ret .vUndefined, s1, s2)

/-- `incrementalProp` instantiated at propName `events`.  The events log is
always an Array (truthy), so the guard reduces to the length test. -/
def incrementalPropEvents
    (cmp : List EventRecord → List EventRecord → COutcome)
    (s1 s2 : StreamState) : COutcome × StreamState × StreamState :=
  let v1 := s1.events
  let v2 := s2.events
  if (!v1.isEmpty || s1.ended) && (!v2.isEmpty || s2.ended) then
    let minLen := min v1.length v2.length
    let out :=
      if v1.length > minLen ∧ s2.ended = false then cmp (v1.take minLen) v2
      else if v2.length > minLen ∧ s1.ended = false then cmp v1 (v2.take minLen)
      else cmp v1 v2
    match out with
    | .thrown v => (.thrown v, s1, s2)
    | .ret r =>
        if 0 < minLen ∧ (r = .vNull ∨ r = .vUndefined) then
          (.ret r, { s1 with events := v1.drop minLen },
            { s2 with events := v2.drop minLen })
        else (.ret r, s1, s2)
  else (.ret .vUndefined, s1, s2)

/-- The result merge of the closure returned by `makeIncremental`
(src/lib/make-incremental.js lines 66-68): the data result wins unless it
is null or undefined, in which case the events result is returned. -/
def mergeResults (dataResult eventsResult : JSVal) : JSVal :=
  if dataResult ≠ .vNull ∧ dataResult ≠ .vUndefined then dataResult
  else eventsResult

/-- `makeIncremental` from src/lib/make-incremental.js lines 59-70: build an
incremental comparator from an optional data-comparison function and an
optional events-comparison function.  A throw from either propagates (after
any truncation already performed); otherwise the results are merged with
data-comparison priority.  An absent function contributes an absent
result. -/
def makeIncremental (cmpData : Option (StateData → StateData → COutcome))
    (cmpEvents : Option (List EventRecord → List EventRecord → COutcome)) :
    Comparator := fun s1 s2 =>
  let dstep :=
    match cmpData with
    | some f => incrementalPropData f s1 s2
    | Option.none => (.ret .vUndefined, s1, s2)
  match dstep with
  | (.thrown v, s1, s2) => (.thrown v, s1, s2)
  | (.ret dv, s1, s2) =>
      let estep :=
        match cmpEvents with
        | some g => incrementalPropEvents g s1 s2
        | Option.none => (.ret .vUndefined, s1, s2)
      match estep with
      | (.thrown v, s1, s2) => (.thrown v, s1, s2)
      | (.ret ev, s1, s2) => (.ret (mergeResults dv ev), s1, s2)

/-- The two stream arguments, to the precision the validation inspects
(src/index.js lines 144-155): are they EventEmitters, and do they have a
callable `read` method. -/
structure RawStream where
  isEmitter : Bool
  hasRead : Bool
deriving DecidableEq

/-- A value occupying an option-bag entry, to the precision the validation
inspects: typeof, truthiness, callability, and whether its `length`
property is a self-equal number (the Array-like test at line 161 computes
`(length !== length) | 0`, which is truthy only for a NaN length). -/
inductive RawVal where
  /-- key absent, or explicitly undefined (extend keeps the default) -/
  | missing
  /-- a function value -/
  | fnVal
  /-- a string primitive -/
  | strVal (s : String)
  /-- an object with a self-equal numeric length (an Array, for example) -/
  | arrLike
  /-- an object whose length property is NaN -/
  | nanLenObj
  /-- any other object, including one with no length property -/
  | objOther
  /-- a truthy primitive that is neither string nor function, such as true -/
  | truthyPrim
  /-- a falsy value: null, false, 0 or similar -/
  | falsyPrim
deriving DecidableEq

/-- JS falsiness of an option-bag value. -/
def RawVal.isFalsy : RawVal → Bool
  | .missing => true
  | .falsyPrim => true
  | .strVal s => s == ""
  | _ => false

/-- The option bag passed as `optionsOrCompare` (only the keys the
implementation reads). -/
structure OptionBag where
  compare : RawVal := .missing
  incremental : RawVal := .missing
  events : RawVal := .missing
  readPolicy : RawVal := .missing
deriving DecidableEq

/-- The `optionsOrCompare` argument (src/index.js lines 128-136): falsy
values skip the dispatch entirely, functions become `{compare: fn}`,
objects are used as the bag, and any other truthy value is a TypeError. -/
inductive OptionsOrCompare where
  | absentOrFalsy
  | fnArg
  | objArg (bag : OptionBag)
  | truthyNonObj
deriving DecidableEq

/-- The validation failures the `StreamComparison` constructor can throw
(src/index.js lines 134, 145, 149, 154, 157, 162, 165, 168, 171), in
source order. -/
inductive ConstructErr where
  | optionsOrCompareType
  | stream1Type
  | stream2Type
  | noReadLeast
  | compareType
  | eventsType
  | incrementalType
  | readPolicyType
  | readPolicyRange (s : String)
deriving DecidableEq

/-- The dispatch on `optionsOrCompare` (src/index.js lines 128-136). -/
def mergedBag : OptionsOrCompare → Except ConstructErr OptionBag
  | .truthyNonObj => .error .optionsOrCompareType
  | .absentOrFalsy => .ok {}
  | .fnArg => .ok { compare := .fnVal }
  | .objArg bag => .ok bag

/-- The Array-like test on `options.events` (src/index.js lines 159-163):
fails for falsy values, non-objects, and objects with a NaN length; note an
object with no length at all passes, because
`(undefined !== undefined) | 0` is 0. -/
def eventsInvalid : RawVal → Bool
  | .arrLike => false
  | .objOther => false
  | _ => true

/-- The validation sequence of the `StreamComparison` constructor
(src/index.js lines 127-173): merge the bag over `DEFAULT_OPTIONS`, default
a falsy `compare` to `incremental`, then run the checks in source order,
returning the first failure. -/
def construct (s1 s2 : RawStream) (oc : OptionsOrCompare) :
    Option ConstructErr :=
  match mergedBag oc with
  | .error e => some e
  | .ok bag =>
      let rp := if bag.readPolicy = .missing then RawVal.strVal "least"
        else bag.readPolicy
      let ev := if bag.events = .missing then RawVal.arrLike else bag.events
      let cmp := if bag.compare.isFalsy then bag.incremental else bag.compare
      if !s1.isEmitter then some .stream1Type
      else if !s2.isEmitter then some .stream2Type
      else if rp = .strVal "least" ∧ (s1.hasRead = false ∨ s2.hasRead = false)
        then some .noReadLeast
      else if cmp ≠ .fnVal then some .compareType
      else if eventsInvalid ev then some .eventsType
      else if !bag.incremental.isFalsy ∧ bag.incremental ≠ .fnVal then
        some .incrementalType
      else
        match rp with
        | .strVal s =>
            if s = "flowing" ∨ s = "least" ∨ s = "none" then Option.none
            else some (.readPolicyRange s)
        | _ => some .readPolicyType

/-- The message of each validation error, as in the source (the decorative
quote characters around embedded values are elided). -/
def errMessage : ConstructErr → String
  | .optionsOrCompareType => "optionsOrCompare must be an object or function"
  | .stream1Type => "stream1 must be an EventEmitter"
  | .stream2Type => "stream2 must be an EventEmitter"
  | .noReadLeast => "streams must have .read() for readPolicy least"
  | .compareType => "options.compare must be a function"
  | .eventsType => "options.events must be Array-like"
  | .incrementalType => "options.incremental must be a function"
  | .readPolicyType => "options.readPolicy must be a string"
  | .readPolicyRange s => "Invalid options.readPolicy " ++ s

/-- The name of the offending argument or option, for each validation
error. -/
def offName : ConstructErr → String
  | .optionsOrCompareType => "optionsOrCompare"
  | .stream1Type => "stream1"
  | .stream2Type => "stream2"
  | .noReadLeast => "readPolicy"
  | .compareType => "options.compare"
  | .eventsType => "options.events"
  | .incrementalType => "options.incremental"
  | .readPolicyType => "options.readPolicy"
  | .readPolicyRange _ => "options.readPolicy"

/-- A message mentions a name when the name occurs in it verbatim. -/
def MentionsName (msg name : String) : Prop :=
  ∃ a b : List Char, msg.data = a ++ name.data ++ b

/-- Outcome of the `streamCompare` construction call with a valid callback
(src/index.js lines 576-628): whether anything was thrown synchronously at
the caller, and which construction error (if any) was delivered through the
callback on the next tick. -/
structure SCOutcome where
  syncThrow : Option ConstructErr
  delivered : Option ConstructErr
deriving DecidableEq

/-- The construction phase of `streamCompare` (src/index.js lines 594-602):
`new StreamComparison` runs inside try/catch, and a thrown validation error
is delivered through `process.nextTick(function() { callback(err); })`
rather than propagating to the caller.  (The promise overload delegates to
this path with an internal callback that rejects the promise.) -/
def streamCompareConstruct (s1 s2 : RawStream) (oc : OptionsOrCompare) :
    SCOutcome :=
  match construct s1 s2 oc with
  | some e => { syncThrow := Option.none, delivered := some e }
  | Option.none => { syncThrow := Option.none, delivered := Option.none }

/-- A comparator that returns a fixed value without mutating the states. -/
def pureRet (v : JSVal) : Comparator := fun s1 s2 => (.ret v, s1, s2)

/-- A comparator that throws a fixed value without mutating the states. -/
def pureThrow (v : JSVal) : Comparator := fun s1 s2 => (.thrown v, s1, s2)

/-- Printable type tag of a data value, as `Object.prototype.toString` style
output would name it inside an assertion message. -/
def sdTypeName : StateData → String
  | .undef => "undefined"
  | .str _ => "String"
  | .buf _ => "Buffer"
  | .arr _ => "Array"

/-- Model of `assert.deepStrictEqual` used as a comparator over the two
stream states: equal states return undefined, differing states throw an
AssertionError whose message names the two data representations. -/
def deepEqualCmp : Comparator := fun s1 s2 =>
  if s1 = s2 then
    (.ret .vUndefined, s1, s2)
  else
    (.thrown (.vStr ("AssertionError: " ++ sdTypeName s1.data ++
      " deepStrictEqual " ++ sdTypeName s2.data)), s1, s2)

@[simp]
theorem stateOf_setState_same (e : Engine) (i : Src) (st : StreamState) :
    (e.setState i st).stateOf i = st := by
  cases i <;> rfl

@[simp]
theorem setState_state1 (e : Engine) (st : StreamState) :
    (e.setState .s1 st).state1 = st := rfl

@[simp]
theorem setState_state2 (e : Engine) (st : StreamState) :
    (e.setState .s2 st).state2 = st := rfl

theorem cbFold_append (ems : List Emission) (em : Emission)
    (acc : List CallbackCall × Bool) :
    (ems ++ [em]).foldl cbStep acc = cbStep (ems.foldl cbStep acc) em := by
  simp [List.foldl_append]

/-- The accumulated calls of `cbStep` over a log extend the accumulator on
the left. -/
theorem cbFold_acc (ems : List Emission) (calls : List CallbackCall)
    (flag : Bool) :
    (ems.foldl cbStep (calls, flag)).1 =
      calls ++ (ems.foldl cbStep ([], flag)).1 := by
  induction ems generalizing calls flag with
  | nil => simp
  | cons em tl ih =>
      cases em with
      | dataE v =>
          rw [List.foldl_cons, List.foldl_cons]
          show (tl.foldl cbStep (calls ++ [.success v], true)).1 =
            calls ++ (tl.foldl cbStep ([.success v], true)).1
          rw [ih, ih [CallbackCall.success v]]
          simp
      | errorE e =>
          rw [List.foldl_cons, List.foldl_cons]
          show (tl.foldl cbStep (calls ++ [.failure (truthify e)], true)).1 =
            calls ++ (tl.foldl cbStep ([.failure (truthify e)], true)).1
          rw [ih, ih [CallbackCall.failure (truthify e)]]
          simp
      | endE =>
          cases flag with
          | true =>
              rw [List.foldl_cons, List.foldl_cons]
              exact ih calls true
          | false =>
              rw [List.foldl_cons, List.foldl_cons]
              show (tl.foldl cbStep (calls ++ [.success .vUndefined], false)).1 =
                calls ++ (tl.foldl cbStep ([.success .vUndefined], false)).1
              rw [ih, ih [CallbackCall.success .vUndefined]]
              simp

/-- Appending an error emission to any log appends exactly one failure
callback carrying the truthified error. -/
theorem callbackCalls_append_error (ems : List Emission) (e : ErrVal) :
    callbackCalls (ems ++ [.errorE e]) =
      callbackCalls ems ++ [.failure (truthify e)] := by
  simp [callbackCalls, cbFold_append, cbStep]

/-- The underlying array of an objectMode data value (empty when the data
is still absent). -/
def arrOf : StateData → List Chunk
  | .arr l => l
  | _ => []

/-- Claim C10: when objectMode is true, accumulating a chunk never raises a
data-shape error for any chunk value: every chunk is appended as one
element to the data array of the state, and totalDataLen increases by
exactly one per chunk, regardless of the type of the chunk.  The hypothesis
is the objectMode reachability invariant (data absent or an array), which
the conclusion preserves. -/
theorem c10_objectMode_addData_safe (st : StreamState) (d : Chunk)
    (h : st.data = .undef ∨ ∃ l, st.data = .arr l) :
    addData true st d =
      Except.ok
        { st with
            data := StateData.arr (arrOf st.data ++ [d])
            totalDataLen := st.totalDataLen + 1 } := by
  rcases h with h | ⟨l, h⟩ <;> simp [addData, arrOf, h]

/-- Witness for C10 at a fresh state and a plain-object chunk. -/
theorem c10_objectMode_addData_safe_witness :
    addData true {} (.other (.vBool true)) =
      .ok { data := .arr [.other (.vBool true)], totalDataLen := 1 } :=
  c10_objectMode_addData_safe {} (.other (.vBool true)) (Or.inl rfl)

/-- Claim C9: a comparator returning null is treated exactly like one
returning undefined: `doCompare` stays inconclusive on both, only a value
that is neither null nor undefined (or a thrown value) concludes with a
result, the `makeIncremental` merge falls through to the events result on
both, and a final (`end`) compare returning null finishes the comparison
with no emitted value. -/
theorem c9_null_like_undefined :
    (∀ (t : CompareType) (e : Engine),
        doCompare (pureRet .vNull) t e = doCompare (pureRet .vUndefined) t e) ∧
    (∀ (t : CompareType) (e : Engine), t ≠ .last →
        doCompare (pureRet .vNull) t e = (e, false)) ∧
    (∀ (v : JSVal) (t : CompareType) (e : Engine),
        v ≠ .vNull → v ≠ .vUndefined →
        doCompare (pureRet v) t e =
          (done { e with emissions := e.emissions ++ [.dataE v] }, true)) ∧
    (∀ (v : JSVal) (t : CompareType) (e : Engine),
        doCompare (pureThrow v) t e =
          (done { e with emissions := e.emissions ++ [.errorE (.jsv v)] },
            true)) ∧
    (∀ ev : JSVal, mergeResults .vNull ev = ev ∧
        mergeResults .vUndefined ev = ev) ∧
    (∀ dv ev : JSVal, dv ≠ .vNull → dv ≠ .vUndefined →
        mergeResults dv ev = dv) ∧
    (∀ (opts : EngineOpts) (e : Engine), opts.compare = pureRet .vNull →
        e.isDone = false → endFn opts e = done e) := by
  refine ⟨?_, ?_, ?_, ?_, ?_, ?_, ?_⟩
  · intro t e
    cases t <;> rfl
  · intro t e ht
    cases t <;> first | rfl | exact absurd rfl ht
  · intro v t e hn hu
    simp [doCompare, pureRet, doCompareStep, hn, hu]
  · intro v t e
    rfl
  · intro ev
    exact ⟨rfl, rfl⟩
  · intro dv ev hn hu
    simp [mergeResults, hn, hu]
  · intro opts e hc hd
    have h1 : doCompare opts.compare .last e = (done e, true) := by
      rw [hc]; rfl
    simp [endFn, hd, h1]

/-- Witness for C9 at concrete inputs. -/
theorem c9_null_like_undefined_witness :
    doCompare (pureRet .vNull) .incremental {} = ({}, false) ∧
    doCompare (pureRet (.vBool false)) .incremental {} =
      (done { emissions := [.dataE (.vBool false)] }, true) ∧
    mergeResults (.vBool false) .vUndefined = .vBool false ∧
    endFn { compare := pureRet .vNull } {} = done {} :=
  ⟨c9_null_like_undefined.2.1 .incremental {} (by decide),
    c9_null_like_undefined.2.2.1 (.vBool false) .incremental {}
      (by decide) (by decide),
    c9_null_like_undefined.2.2.2.2.2.1 (.vBool false) .vUndefined
      (by decide) (by decide),
    c9_null_like_undefined.2.2.2.2.2.2 { compare := pureRet .vNull } {}
      rfl rfl⟩

/-- Engine configuration whose final comparator always throws `v`. -/
def throwOpts (v : JSVal) : EngineOpts := { compare := pureThrow v }

/-- Claim C8: a comparator throwing a falsy value still rejects the
comparison with a truthy reason carrying the original value (the falsy
value is wrapped in a fresh Error with the original as its cause), and a
falsy throw is never delivered as a successful resolution. -/
theorem c8_falsy_throw_rejects :
    (∀ e : ErrVal, (truthify e).truthy = true) ∧
    (∀ e : ErrVal, e.falsy = true → truthify e = .wrapped e) ∧
    (∀ (c : Comparator) (t : CompareType) (e : Engine) (v : JSVal),
        (c e.state1 e.state2).1 = .thrown v →
        doCompare c t e =
          (done { e with
              state1 := (c e.state1 e.state2).2.1
              state2 := (c e.state1 e.state2).2.2
              emissions := e.emissions ++ [.errorE (.jsv v)] }, true)) ∧
    (∀ v : JSVal, v.falsy = true →
        callbackCalls
            (run (throwOpts v) {} [.endEvt .s1, .endEvt .s2, .tick]).emissions =
          [.failure (.wrapped (.jsv v))] ∧
        (DeliveredErr.wrapped (.jsv v)).truthy = true ∧
        ∀ w, CallbackCall.success w ∉
          callbackCalls
            (run (throwOpts v) {} [.endEvt .s1, .endEvt .s2, .tick]).emissions) := by
  refine ⟨?_, ?_, ?_, ?_⟩
  · intro e
    cases he : e.falsy <;> simp [truthify, DeliveredErr.truthy, he]
  · intro e he
    simp [truthify, he]
  · intro c t e v h
    rcases hcc : c e.state1 e.state2 with ⟨out, s1', s2'⟩
    rw [hcc] at h
    simp only at h
    subst h
    simp [doCompare, hcc, doCompareStep]
  · intro v hv
    have ht : truthify (.jsv v) = .wrapped (.jsv v) := by
      simp [truthify, ErrVal.falsy, hv]
    have hcb : callbackCalls
        (run (throwOpts v) {} [.endEvt .s1, .endEvt .s2, .tick]).emissions =
        [.failure (.wrapped (.jsv v))] := by
      show callbackCalls [.errorE (.jsv v), .endE] = _
      simp [callbackCalls, cbStep, ht]
    refine ⟨hcb, rfl, ?_⟩
    intro w hw
    rw [hcb] at hw
    simp at hw

/-- Witness for C8 at the falsy throw value false. -/
theorem c8_falsy_throw_rejects_witness :
    callbackCalls
        (run (throwOpts (.vBool false)) {}
          [.endEvt .s1, .endEvt .s2, .tick]).emissions =
      [.failure (.wrapped (.jsv (.vBool false)))] :=
  (c8_falsy_throw_rejects.2.2.2 (.vBool false) rfl).1

/-- Options of the C1 failing scenario: flowing reads with an incremental
comparator that is conclusive (returns false) on every call. -/
def c1Opts : EngineOpts :=
  { compare := pureRet .vUndefined
    incremental := some (pureRet (.vBool false))
    readPolicy := .flowing }

/-- Claim C1 (failing on the code): under the flowing read policy, a data
chunk arriving after the comparison has resolved re-runs the incremental
comparator — the data listeners installed at src/index.js lines 496-497 are
never removed by `done` and neither `handleData` nor `doCompare` checks
`isDone` — so a second conclusive result is emitted: the comparison emits
`data` and `end` twice and the callback of `streamCompare` is invoked
twice, contradicting the exactly-once resolution the claim states (and the
class documentation at src/index.js lines 92-94). -/
theorem c1_post_resolution_data_retriggers :
    settlements (run c1Opts {} [.dataEvt .s1 (.str ['a'])]) = 1 ∧
    (run c1Opts {} [.dataEvt .s1 (.str ['a'])]).isDone = true ∧
    (run c1Opts {}
        [.dataEvt .s1 (.str ['a']), .dataEvt .s1 (.str ['b'])]).emissions =
      [.dataE (.vBool false), .endE, .dataE (.vBool false), .endE] ∧
    settlements (run c1Opts {}
        [.dataEvt .s1 (.str ['a']), .dataEvt .s1 (.str ['b'])]) = 2 ∧
    callbackCalls (run c1Opts {}
        [.dataEvt .s1 (.str ['a']), .dataEvt .s1 (.str ['b'])]).emissions =
      [.success (.vBool false), .success (.vBool false)] :=
  ⟨rfl, rfl, rfl, rfl, rfl⟩

/-- Claim C2 (failing on the code): the engine recognizes no endEvents
option.  Its entire behavior is independent of an endEvents entry in the
option bag, and a notification named by such an entry never counts toward
the both-sources-terminated condition: only the hardcoded end and error
listeners do (src/index.js lines 352-368). -/
theorem c2_endEvents_ignored :
    (∀ (opts : EngineOpts) (x : Option (List String)) (e : Engine)
        (tr : List SrcEvent),
        run { opts with endEvents := x } e tr = run opts e tr) ∧
    ((run { compare := deepEqualCmp, endEvents := some ["test"] } {}
        [.namedEvt .s1 "test" [], .namedEvt .s2 "test" []]).endedCount = 0 ∧
      (run { compare := deepEqualCmp, endEvents := some ["test"] } {}
        [.namedEvt .s1 "test" [], .namedEvt .s2 "test" []]).pendingFinal =
        false ∧
      (run { compare := deepEqualCmp, endEvents := some ["test"] } {}
        [.namedEvt .s1 "test" [], .namedEvt .s2 "test" []]).state1.ended =
        false ∧
      (run { compare := deepEqualCmp, endEvents := some ["test"] } {}
        [.namedEvt .s1 "test" [], .namedEvt .s2 "test" []]).emissions = []) := by
  constructor
  · intro opts x e tr
    induction tr generalizing e with
    | nil => rfl
    | cons ev tl ih =>
        have hd : dispatch { opts with endEvents := x } e ev =
            dispatch opts e ev := by
          cases ev <;> rfl
        simp [run, hd, ih]
  · exact ⟨rfl, rfl, rfl, rfl⟩

/-- Claim C3: every invalid argument or option that the `StreamComparison`
validation detects — invalid source object, non-callable or absent
comparator, invalid events/incremental/readPolicy shape, unrecognized
readPolicy value — is delivered by `streamCompare` through the deferred
result channel, never thrown synchronously from the construction call, and
its message names the offending argument or option.  The trailing conjuncts
show each of the listed categories is actually produced by `construct`. -/
theorem c3_validation_errors_via_channel :
    (∀ (s1 s2 : RawStream) (oc : OptionsOrCompare) (e : ConstructErr),
        construct s1 s2 oc = some e →
        streamCompareConstruct s1 s2 oc =
          { syncThrow := Option.none, delivered := some e } ∧
        MentionsName (errMessage e) (offName e)) ∧
    construct ⟨false, true⟩ ⟨true, true⟩ .fnArg = some .stream1Type ∧
    construct ⟨true, true⟩ ⟨false, true⟩ .fnArg = some .stream2Type ∧
    construct ⟨true, false⟩ ⟨true, true⟩ .fnArg = some .noReadLeast ∧
    construct ⟨true, true⟩ ⟨true, true⟩ .absentOrFalsy = some .compareType ∧
    construct ⟨true, true⟩ ⟨true, true⟩
        (.objArg { compare := .truthyPrim }) = some .compareType ∧
    construct ⟨true, true⟩ ⟨true, true⟩
        (.objArg { compare := .fnVal, events := .truthyPrim }) =
      some .eventsType ∧
    construct ⟨true, true⟩ ⟨true, true⟩
        (.objArg { compare := .fnVal, incremental := .truthyPrim }) =
      some .incrementalType ∧
    construct ⟨true, true⟩ ⟨true, true⟩
        (.objArg { compare := .fnVal, readPolicy := .truthyPrim }) =
      some .readPolicyType ∧
    construct ⟨true, true⟩ ⟨true, true⟩
        (.objArg { compare := .fnVal, readPolicy := .strVal "invalid" }) =
      some (.readPolicyRange "invalid") ∧
    construct ⟨true, true⟩ ⟨true, true⟩ .truthyNonObj =
      some .optionsOrCompareType := by
  refine ⟨?_, rfl, rfl, rfl, rfl, rfl, rfl, rfl, rfl, rfl, rfl⟩
  intro s1 s2 oc e h
  constructor
  · simp [streamCompareConstruct, h]
  · cases e with
    | optionsOrCompareType =>
        exact ⟨[], " must be an object or function".data, rfl⟩
    | stream1Type => exact ⟨[], " must be an EventEmitter".data, rfl⟩
    | stream2Type => exact ⟨[], " must be an EventEmitter".data, rfl⟩
    | noReadLeast =>
        exact ⟨"streams must have .read() for ".data, " least".data, rfl⟩
    | compareType => exact ⟨[], " must be a function".data, rfl⟩
    | eventsType => exact ⟨[], " must be Array-like".data, rfl⟩
    | incrementalType => exact ⟨[], " must be a function".data, rfl⟩
    | readPolicyType => exact ⟨[], " must be a string".data, rfl⟩
    | readPolicyRange s =>
        cases s with
        | mk l => exact ⟨"Invalid ".data, " ".data ++ l, rfl⟩

/-- Witness for C3: an invalid stream1 argument is delivered through the
callback channel with a message naming stream1, with nothing thrown. -/
theorem c3_validation_errors_via_channel_witness :
    streamCompareConstruct ⟨false, true⟩ ⟨true, true⟩ .fnArg =
      { syncThrow := Option.none, delivered := some .stream1Type } ∧
    MentionsName (errMessage .stream1Type) (offName .stream1Type) :=
  c3_validation_errors_via_channel.1 ⟨false, true⟩ ⟨true, true⟩ .fnArg
    .stream1Type rfl

@[simp]
theorem setState_endedCount (e : Engine) (i : Src) (st : StreamState) :
    (e.setState i st).endedCount = e.endedCount := by cases i <;> rfl

@[simp]
theorem setState_isDone (e : Engine) (i : Src) (st : StreamState) :
    (e.setState i st).isDone = e.isDone := by cases i <;> rfl

@[simp]
theorem setState_detached (e : Engine) (i : Src) (st : StreamState) :
    (e.setState i st).detached = e.detached := by cases i <;> rfl

@[simp]
theorem setState_pendingFinal (e : Engine) (i : Src) (st : StreamState) :
    (e.setState i st).pendingFinal = e.pendingFinal := by cases i <;> rfl

@[simp]
theorem setState_emissions (e : Engine) (i : Src) (st : StreamState) :
    (e.setState i st).emissions = e.emissions := by cases i <;> rfl

@[simp]
theorem stateOf_s1 (e : Engine) : e.stateOf .s1 = e.state1 := rfl

@[simp]
theorem stateOf_s2 (e : Engine) : e.stateOf .s2 = e.state2 := rfl

@[simp]
theorem setState_s1_state2 (e : Engine) (st : StreamState) :
    (e.setState .s1 st).state2 = e.state2 := rfl

@[simp]
theorem setState_s2_state1 (e : Engine) (st : StreamState) :
    (e.setState .s2 st).state1 = e.state1 := rfl

/-- Whether an occurrence is a terminal notification (an end or error
event) from source `i` — exactly the events on which `endListener` is
registered when abortOnError is off (src/index.js lines 352-368). -/
def isTerminalFor (i : Src) : SrcEvent → Bool
  | .endEvt j => i == j
  | .errorEvt j _ => i == j
  | _ => false

/-- A terminal notification from either source. -/
def isTerminal (ev : SrcEvent) : Bool :=
  isTerminalFor .s1 ev || isTerminalFor .s2 ev

/-- The termination-tracking invariant for a comparison with no incremental
comparator: the two ended flags equal the tracking booleans, the ended
counter counts them, the final compare is scheduled exactly when both are
set, and the comparison is unresolved with its listeners attached. -/
def InvC (e : Engine) (a1 a2 : Bool) : Prop :=
  e.state1.ended = a1 ∧ e.state2.ended = a2 ∧
  e.endedCount = cond a1 1 0 + cond a2 1 0 ∧
  e.pendingFinal = (a1 && a2) ∧
  e.isDone = false ∧ e.detached = false

/-- With no incremental comparator, the logging listener only appends an
event record. -/
theorem eventListenerBody_none (opts : EngineOpts) (e : Engine) (i : Src)
    (name : String) (args : List JSVal)
    (hinc : opts.incremental = Option.none) :
    eventListenerBody opts e i name args =
      e.setState i
        { e.stateOf i with events := (e.stateOf i).events ++ [⟨name, args⟩] } := by
  simp [eventListenerBody, hinc]

/-- The logging listener preserves the termination invariant. -/
theorem eventListenerBody_invC (opts : EngineOpts) (e : Engine) (i : Src)
    (name : String) (args : List JSVal) (a1 a2 : Bool)
    (hinc : opts.incremental = Option.none) (h : InvC e a1 a2) :
    InvC (eventListenerBody opts e i name args) a1 a2 := by
  obtain ⟨h1, h2, hc, hp, hd, hdet⟩ := h
  rw [eventListenerBody_none opts e i name args hinc]
  cases i <;>
    exact ⟨by simpa using h1, by simpa using h2, by simpa using hc,
      by simpa using hp, by simpa using hd, by simpa using hdet⟩

/-- With no incremental comparator, `endListener` either ignores the call
(already ended source, or comparison done) or records the transition and
schedules the final compare when it is the second one. -/
theorem endListener_none (opts : EngineOpts) (e : Engine) (i : Src)
    (hinc : opts.incremental = Option.none) :
    endListener opts e i =
      if (e.stateOf i).ended || e.isDone then e
      else
        let e1 := e.setState i { e.stateOf i with ended := true }
        let e2 := { e1 with endedCount := e1.endedCount + 1 }
        if e2.endedCount = 2 then { e2 with pendingFinal := true } else e2 := by
  simp [endListener, hinc]

@[simp]
theorem s1_beq_s2 : (Src.s1 == Src.s2) = false := rfl

@[simp]
theorem s2_beq_s1 : (Src.s2 == Src.s1) = false := rfl

@[simp]
theorem s1_beq_s1 : (Src.s1 == Src.s1) = true := rfl

@[simp]
theorem s2_beq_s2 : (Src.s2 == Src.s2) = true := rfl

/-- `endListener` moves the termination invariant along: the flag of the
notifying source becomes set, exactly-once and with scheduling exactly on
the second distinct transition. -/
theorem endListener_invC (opts : EngineOpts) (e : Engine) (i : Src)
    (a1 a2 : Bool) (hinc : opts.incremental = Option.none)
    (h : InvC e a1 a2) :
    InvC (endListener opts e i) (a1 || (Src.s1 == i)) (a2 || (Src.s2 == i)) := by
  obtain ⟨h1, h2, hc, hp, hd, hdet⟩ := h
  rw [endListener_none opts e i hinc]
  cases i with
  | s1 =>
      cases a1 with
      | true =>
          rw [if_pos (by simp [h1])]
          exact ⟨by simp [h1], by simp [h2], by simpa using hc,
            by simpa using hp, hd, hdet⟩
      | false =>
          rw [if_neg (by simp [h1, hd])]
          cases a2 with
          | true =>
              rw [if_pos (by simp [hc, h2])]
              refine ⟨by simp, by simp [h2], by simp [hc], by simp, hd, hdet⟩
          | false =>
              rw [if_neg (by simp [hc, h2])]
              refine ⟨by simp, by simp [h2], by simp [hc], by simp [hp], hd, hdet⟩
  | s2 =>
      cases a2 with
      | true =>
          rw [if_pos (by simp [h2])]
          exact ⟨by simp [h1], by simp [h2], by simpa using hc,
            by simpa using hp, hd, hdet⟩
      | false =>
          rw [if_neg (by simp [h2, hd])]
          cases a1 with
          | true =>
              rw [if_pos (by simp [hc, h1])]
              refine ⟨by simp [h1], by simp, by simp [hc], by simp, hd, hdet⟩
          | false =>
              rw [if_neg (by simp [hc, h1])]
              refine ⟨by simp [h1], by simp, by simp [hc], by simp [hp], hd, hdet⟩

/-- One terminal occurrence moves the invariant along under `dispatch`. -/
theorem dispatch_invC (opts : EngineOpts) (e : Engine) (ev : SrcEvent)
    (a1 a2 : Bool) (hinc : opts.incremental = Option.none)
    (habort : opts.abortOnError = false) (hterm : isTerminal ev = true)
    (h : InvC e a1 a2) :
    InvC (dispatch opts e ev) (a1 || isTerminalFor .s1 ev)
      (a2 || isTerminalFor .s2 ev) := by
  obtain ⟨h1, h2, hc, hp, hd, hdet⟩ := h
  cases ev with
  | dataEvt i d => simp [isTerminal, isTerminalFor] at hterm
  | namedEvt i name args => simp [isTerminal, isTerminalFor] at hterm
  | tick => simp [isTerminal, isTerminalFor] at hterm
  | endEvt i =>
      show InvC (dispatch opts e (.endEvt i)) (a1 || (Src.s1 == i))
        (a2 || (Src.s2 == i))
      rw [dispatch]
      rw [if_neg (by simp [hdet])]
      by_cases hr : eventRegistered opts "end" = true
      · rw [if_pos hr]
        exact endListener_invC opts _ i a1 a2 hinc
          (eventListenerBody_invC opts e i "end" [] a1 a2 hinc
            ⟨h1, h2, hc, hp, hd, hdet⟩)
      · rw [if_neg hr]
        exact endListener_invC opts e i a1 a2 hinc ⟨h1, h2, hc, hp, hd, hdet⟩
  | errorEvt i v =>
      show InvC (dispatch opts e (.errorEvt i v)) (a1 || (Src.s1 == i))
        (a2 || (Src.s2 == i))
      rw [dispatch]
      rw [if_neg (by simp [hdet])]
      rw [if_neg (by simp [habort])]
      by_cases hr : eventRegistered opts "error" = true
      · rw [if_pos hr]
        exact endListener_invC opts _ i a1 a2 hinc
          (eventListenerBody_invC opts e i "error" [v] a1 a2 hinc
            ⟨h1, h2, hc, hp, hd, hdet⟩)
      · rw [if_neg hr]
        exact endListener_invC opts e i a1 a2 hinc ⟨h1, h2, hc, hp, hd, hdet⟩

/-- The invariant threaded through a whole terminal trace. -/
theorem run_invC (opts : EngineOpts) (hinc : opts.incremental = Option.none)
    (habort : opts.abortOnError = false) :
    ∀ (tr : List SrcEvent) (e : Engine) (a1 a2 : Bool),
      (∀ ev ∈ tr, isTerminal ev = true) → InvC e a1 a2 →
      InvC (run opts e tr) (a1 || tr.any (isTerminalFor .s1))
        (a2 || tr.any (isTerminalFor .s2)) := by
  intro tr
  induction tr with
  | nil => intro e a1 a2 _ h; simpa using h
  | cons ev tl ih =>
      intro e a1 a2 hterm h
      have hstep := dispatch_invC opts e ev a1 a2 hinc habort
        (hterm ev (by simp)) h
      have hrest := ih (dispatch opts e ev)
        (a1 || isTerminalFor .s1 ev) (a2 || isTerminalFor .s2 ev)
        (fun x hx => hterm x (by simp [hx])) hstep
      simpa [run, List.any_cons, Bool.or_assoc] using hrest

/-- Claim C5: for a comparison without an incremental comparator, only the
first terminal notification per source sets the ended flag of that source
and increments the ended counter; repeats are ignored; and the final
compare is scheduled exactly when the second source makes its first
false-to-true ended transition — this holds for every trace of terminal
notifications (in particular for every initial segment of one, so two same-turn
terminations are counted as two distinct terminations). -/
theorem c5_first_terminal_transitions (opts : EngineOpts)
    (tr : List SrcEvent) (hinc : opts.incremental = Option.none)
    (habort : opts.abortOnError = false)
    (hterm : ∀ ev ∈ tr, isTerminal ev = true) :
    (run opts {} tr).state1.ended = tr.any (isTerminalFor .s1) ∧
    (run opts {} tr).state2.ended = tr.any (isTerminalFor .s2) ∧
    (run opts {} tr).endedCount =
      cond (tr.any (isTerminalFor .s1)) 1 0 +
        cond (tr.any (isTerminalFor .s2)) 1 0 ∧
    (run opts {} tr).pendingFinal =
      (tr.any (isTerminalFor .s1) && tr.any (isTerminalFor .s2)) ∧
    (run opts {} tr).isDone = false := by
  have h0 : InvC ({} : Engine) false false :=
    ⟨rfl, rfl, rfl, rfl, rfl, rfl⟩
  have h := run_invC opts hinc habort tr {} false false hterm h0
  obtain ⟨h1, h2, hc, hp, hd, _⟩ := h
  simp only [Bool.false_or] at h1 h2 hc hp
  exact ⟨h1, h2, hc, hp, hd⟩

/-- Witness for C5: a repeated end from stream1 is ignored; two distinct
terminations (even adjacent) schedule the final compare. -/
theorem c5_first_terminal_transitions_witness :
    (run { compare := deepEqualCmp } {}
        [.endEvt .s1, .endEvt .s1, .endEvt .s2]).state1.ended = true ∧
    (run { compare := deepEqualCmp } {}
        [.endEvt .s1, .endEvt .s1, .endEvt .s2]).state2.ended = true ∧
    (run { compare := deepEqualCmp } {}
        [.endEvt .s1, .endEvt .s1, .endEvt .s2]).endedCount = 2 ∧
    (run { compare := deepEqualCmp } {}
        [.endEvt .s1, .endEvt .s1, .endEvt .s2]).pendingFinal = true ∧
    (run { compare := deepEqualCmp } {}
        [.endEvt .s1, .endEvt .s1, .endEvt .s2]).isDone = false :=
  c5_first_terminal_transitions { compare := deepEqualCmp }
    [.endEvt .s1, .endEvt .s1, .endEvt .s2] rfl rfl (by decide)

/-- A successful `addData` touches only the data fields, never the ended
flag or the event log. -/
theorem addData_ok_ended (om : Bool) (st : StreamState) (d : Chunk)
    (st' : StreamState) (h : addData om st d = .ok st') :
    st'.ended = st.ended ∧ st'.events = st.events := by
  unfold addData at h
  repeat' split at h
  all_goals simp_all
  all_goals (subst h; exact ⟨rfl, rfl⟩)

/-- With no incremental comparator, `handleData` never changes the ended
flags. -/
theorem handleData_ended (opts : EngineOpts) (e : Engine) (i : Src)
    (d : Chunk) (hinc : opts.incremental = Option.none) :
    (handleData opts e i d).state1.ended = e.state1.ended ∧
    (handleData opts e i d).state2.ended = e.state2.ended := by
  unfold handleData
  cases hadd : addData opts.objectMode (e.stateOf i) d with
  | error err => simp [done]
  | ok st' =>
      have he := (addData_ok_ended _ _ _ _ hadd).1
      cases i with
      | s1 => simp [hinc, he]
      | s2 => simp [hinc, he]

/-- If both sources are live, the smaller totalDataLen is selected, ties
toward stream1. -/
theorem selectSource_both_live (st1 st2 : StreamState)
    (h1 : st1.ended = false) (h2 : st2.ended = false) :
    selectSource st1 st2 =
      some (if st1.totalDataLen ≤ st2.totalDataLen then Src.s1 else Src.s2) := by
  by_cases hle : st1.totalDataLen ≤ st2.totalDataLen <;>
    simp [selectSource, h1, h2, hle]

/-- If only stream2 has ended, stream1 is selected regardless of lengths. -/
theorem selectSource_s2_ended (st1 st2 : StreamState)
    (h1 : st1.ended = false) (h2 : st2.ended = true) :
    selectSource st1 st2 = some Src.s1 := by
  simp [selectSource, h1, h2]

/-- If only stream1 has ended, stream2 is selected regardless of lengths. -/
theorem selectSource_s1_ended (st1 st2 : StreamState)
    (h1 : st1.ended = true) (h2 : st2.ended = false) :
    selectSource st1 st2 = some Src.s2 := by
  simp [selectSource, h1, h2]

/-- If both sources have ended, nothing is selected. -/
theorem selectSource_both_ended (st1 st2 : StreamState)
    (h1 : st1.ended = true) (h2 : st2.ended = true) :
    selectSource st1 st2 = Option.none := by
  simp [selectSource, h1, h2]

/-- A selection of stream1 implies stream1 has not ended. -/
theorem selectSource_eq_s1 (st1 st2 : StreamState)
    (h : selectSource st1 st2 = some Src.s1) : st1.ended = false := by
  unfold selectSource at h
  split at h
  · rename_i hcond
    simp at hcond
    exact hcond.1
  · split at h <;> simp_all

/-- A selection of stream2 implies stream2 has not ended. -/
theorem selectSource_eq_s2 (st1 st2 : StreamState)
    (h : selectSource st1 st2 = some Src.s2) : st2.ended = false := by
  unfold selectSource at h
  split at h
  · simp_all
  · split at h
    · rename_i hcond
      simpa using hcond
    · simp_all

/-- Unfolding: a finished comparison reads nothing. -/
theorem readNext_done (opts : EngineOpts) (e : Engine) (q1 q2 : List Chunk)
    (h : e.isDone = true) :
    readNext opts e q1 q2 = ⟨e, q1, q2, [], Option.none⟩ := by
  rw [readNext.eq_def]
  simp [h]

/-- Unfolding: with no selectable source nothing further is read. -/
theorem readNext_sel_none (opts : EngineOpts) (e : Engine)
    (q1 q2 : List Chunk) (h : e.isDone = false)
    (hsel : selectSource e.state1 e.state2 = Option.none) :
    readNext opts e q1 q2 = ⟨e, q1, q2, [], Option.none⟩ := by
  rw [readNext.eq_def]
  simp [h, hsel]

/-- Unfolding: a null read from the selected stream1 waits on stream1. -/
theorem readNext_s1_nil (opts : EngineOpts) (e : Engine) (q2 : List Chunk)
    (h : e.isDone = false)
    (hsel : selectSource e.state1 e.state2 = some Src.s1) :
    readNext opts e [] q2 = ⟨e, [], q2, [], some Src.s1⟩ := by
  rw [readNext.eq_def]
  simp [h, hsel]

/-- Unfolding: a successful read from the selected stream1 records the pull
and continues. -/
theorem readNext_s1_cons (opts : EngineOpts) (e : Engine) (d : Chunk)
    (q1' q2 : List Chunk) (h : e.isDone = false)
    (hsel : selectSource e.state1 e.state2 = some Src.s1) :
    readNext opts e (d :: q1') q2 =
      ⟨(readNext opts (handleData opts e .s1 d) q1' q2).eng,
        (readNext opts (handleData opts e .s1 d) q1' q2).rest1,
        (readNext opts (handleData opts e .s1 d) q1' q2).rest2,
        (Src.s1, e.state1.ended) ::
          (readNext opts (handleData opts e .s1 d) q1' q2).pulls,
        (readNext opts (handleData opts e .s1 d) q1' q2).waiting⟩ := by
  rw [readNext.eq_def]
  simp [h, hsel]

/-- Unfolding: a null read from the selected stream2 waits on stream2. -/
theorem readNext_s2_nil (opts : EngineOpts) (e : Engine) (q1 : List Chunk)
    (h : e.isDone = false)
    (hsel : selectSource e.state1 e.state2 = some Src.s2) :
    readNext opts e q1 [] = ⟨e, q1, [], [], some Src.s2⟩ := by
  rw [readNext.eq_def]
  simp [h, hsel]

/-- Unfolding: a successful read from the selected stream2 records the pull
and continues. -/
theorem readNext_s2_cons (opts : EngineOpts) (e : Engine) (d : Chunk)
    (q1 q2' : List Chunk) (h : e.isDone = false)
    (hsel : selectSource e.state1 e.state2 = some Src.s2) :
    readNext opts e q1 (d :: q2') =
      ⟨(readNext opts (handleData opts e .s2 d) q1 q2').eng,
        (readNext opts (handleData opts e .s2 d) q1 q2').rest1,
        (readNext opts (handleData opts e .s2 d) q1 q2').rest2,
        (Src.s2, e.state2.ended) ::
          (readNext opts (handleData opts e .s2 d) q1 q2').pulls,
        (readNext opts (handleData opts e .s2 d) q1 q2').waiting⟩ := by
  rw [readNext.eq_def]
  simp [h, hsel]

/-- Every pull the `readNext` loop performs targets a source whose ended
flag is false at the moment of the pull. -/
theorem readNext_pulls_not_ended (opts : EngineOpts) (e : Engine)
    (q1 q2 : List Chunk) :
    ∀ p ∈ (readNext opts e q1 q2).pulls, p.2 = false := by
  induction e, q1, q2 using readNext.induct
  case opts => exact opts
  case case1 e q1 q2 h =>
      rw [readNext_done opts e q1 q2 h]
      intro p hp
      simp at hp
  case case2 e q1 q2 hsel h =>
      rw [readNext_sel_none opts e q1 q2 h hsel]
      intro p hp
      simp at hp
  case case3 e q2 hsel h =>
      rw [readNext_s1_nil opts e q2 h hsel]
      intro p hp
      simp at hp
  case case4 e d q1' q2 hsel h ih =>
      rw [readNext_s1_cons opts e d q1' q2 h hsel]
      intro p hp
      rcases List.mem_cons.mp hp with rfl | hmem
      · exact selectSource_eq_s1 _ _ hsel
      · exact ih p hmem
  case case5 e q1 hsel h =>
      rw [readNext_s2_nil opts e q1 h hsel]
      intro p hp
      simp at hp
  case case6 e q1 d q2' hsel h ih =>
      rw [readNext_s2_cons opts e d q1 q2' h hsel]
      intro p hp
      rcases List.mem_cons.mp hp with rfl | hmem
      · exact selectSource_eq_s2 _ _ hsel
      · exact ih p hmem

/-- When the `readNext` loop stops to wait for readability, it waits on
exactly the stream the selection chose, and that stream had no chunk
available. -/
theorem readNext_waiting (opts : EngineOpts) (e : Engine)
    (q1 q2 : List Chunk) (i : Src)
    (h : (readNext opts e q1 q2).waiting = some i) :
    selectSource (readNext opts e q1 q2).eng.state1
        (readNext opts e q1 q2).eng.state2 = some i ∧
    (i = Src.s1 → (readNext opts e q1 q2).rest1 = []) ∧
    (i = Src.s2 → (readNext opts e q1 q2).rest2 = []) := by
  induction e, q1, q2 using readNext.induct
  case opts => exact opts
  case case1 e q1 q2 hd =>
      rw [readNext_done opts e q1 q2 hd] at h
      simp at h
  case case2 e q1 q2 hsel hd =>
      rw [readNext_sel_none opts e q1 q2 hd hsel] at h
      simp at h
  case case3 e q2 hsel hd =>
      rw [readNext_s1_nil opts e q2 hd hsel] at h ⊢
      have hi : Src.s1 = i := by simpa using h
      subst hi
      exact ⟨hsel, fun _ => rfl, fun hcontra => absurd hcontra (by decide)⟩
  case case4 e d q1' q2 hsel hd ih =>
      rw [readNext_s1_cons opts e d q1' q2 hd hsel] at h ⊢
      exact ih h
  case case5 e q1 hsel hd =>
      rw [readNext_s2_nil opts e q1 hd hsel] at h ⊢
      have hi : Src.s2 = i := by simpa using h
      subst hi
      exact ⟨hsel, fun hcontra => absurd hcontra (by decide), fun _ => rfl⟩
  case case6 e q1 d q2' hsel hd ih =>
      rw [readNext_s2_cons opts e d q1 q2' hd hsel] at h ⊢
      exact ih h

/-- With no incremental comparator, once stream1 has ended every pull of
the `readNext` loop targets stream2. -/
theorem readNext_ended1 (opts : EngineOpts)
    (hinc : opts.incremental = Option.none) (e : Engine)
    (q1 q2 : List Chunk) :
    e.state1.ended = true →
    ∀ p ∈ (readNext opts e q1 q2).pulls, p.1 = Src.s2 := by
  induction e, q1, q2 using readNext.induct
  case opts => exact opts
  case case1 e q1 q2 h =>
      intro _ p hp
      rw [readNext_done opts e q1 q2 h] at hp
      simp at hp
  case case2 e q1 q2 hsel h =>
      intro _ p hp
      rw [readNext_sel_none opts e q1 q2 h hsel] at hp
      simp at hp
  case case3 e q2 hsel h =>
      intro _ p hp
      rw [readNext_s1_nil opts e q2 h hsel] at hp
      simp at hp
  case case4 e d q1' q2 hsel h ih =>
      intro hend
      exact absurd (selectSource_eq_s1 _ _ hsel) (by simp [hend])
  case case5 e q1 hsel h =>
      intro _ p hp
      rw [readNext_s2_nil opts e q1 h hsel] at hp
      simp at hp
  case case6 e q1 d q2' hsel h ih =>
      intro hend p hp
      rw [readNext_s2_cons opts e d q1 q2' h hsel] at hp
      rcases List.mem_cons.mp hp with rfl | hmem
      · rfl
      · exact ih ((handleData_ended opts e .s2 d hinc).1.trans hend) p hmem

/-- With no incremental comparator, once stream2 has ended every pull of
the `readNext` loop targets stream1. -/
theorem readNext_ended2 (opts : EngineOpts)
    (hinc : opts.incremental = Option.none) (e : Engine)
    (q1 q2 : List Chunk) :
    e.state2.ended = true →
    ∀ p ∈ (readNext opts e q1 q2).pulls, p.1 = Src.s1 := by
  induction e, q1, q2 using readNext.induct
  case opts => exact opts
  case case1 e q1 q2 h =>
      intro _ p hp
      rw [readNext_done opts e q1 q2 h] at hp
      simp at hp
  case case2 e q1 q2 hsel h =>
      intro _ p hp
      rw [readNext_sel_none opts e q1 q2 h hsel] at hp
      simp at hp
  case case3 e q2 hsel h =>
      intro _ p hp
      rw [readNext_s1_nil opts e q2 h hsel] at hp
      simp at hp
  case case4 e d q1' q2 hsel h ih =>
      intro hend p hp
      rw [readNext_s1_cons opts e d q1' q2 h hsel] at hp
      rcases List.mem_cons.mp hp with rfl | hmem
      · rfl
      · exact ih ((handleData_ended opts e .s1 d hinc).2.trans hend) p hmem
  case case5 e q1 hsel h =>
      intro _ p hp
      rw [readNext_s2_nil opts e q1 h hsel] at hp
      simp at hp
  case case6 e q1 d q2' hsel h ih =>
      intro hend
      exact absurd (selectSource_eq_s2 _ _ hsel) (by simp [hend])

/-- Claim C4: under the least read policy, selection pulls from the
non-ended source with the smaller totalDataLen (ties toward stream1); an
ended source is never selected or pulled; a null read makes the loop wait
on exactly the selected, exhausted source; and once one source has ended,
every pull targets the other source. -/
theorem c4_least_read_scheduling :
    (∀ st1 st2 : StreamState, st1.ended = false → st2.ended = false →
        selectSource st1 st2 =
          some (if st1.totalDataLen ≤ st2.totalDataLen then Src.s1
            else Src.s2)) ∧
    (∀ st1 st2 : StreamState, st1.ended = false → st2.ended = true →
        selectSource st1 st2 = some Src.s1) ∧
    (∀ st1 st2 : StreamState, st1.ended = true → st2.ended = false →
        selectSource st1 st2 = some Src.s2) ∧
    (∀ st1 st2 : StreamState, st1.ended = true → st2.ended = true →
        selectSource st1 st2 = Option.none) ∧
    (∀ (opts : EngineOpts) (e : Engine) (q1 q2 : List Chunk),
        ∀ p ∈ (readNext opts e q1 q2).pulls, p.2 = false) ∧
    (∀ (opts : EngineOpts) (e : Engine) (q1 q2 : List Chunk) (i : Src),
        (readNext opts e q1 q2).waiting = some i →
        selectSource (readNext opts e q1 q2).eng.state1
            (readNext opts e q1 q2).eng.state2 = some i ∧
        (i = Src.s1 → (readNext opts e q1 q2).rest1 = []) ∧
        (i = Src.s2 → (readNext opts e q1 q2).rest2 = [])) ∧
    (∀ opts : EngineOpts, opts.incremental = Option.none →
        ∀ (e : Engine) (q1 q2 : List Chunk), e.state1.ended = true →
        ∀ p ∈ (readNext opts e q1 q2).pulls, p.1 = Src.s2) ∧
    (∀ opts : EngineOpts, opts.incremental = Option.none →
        ∀ (e : Engine) (q1 q2 : List Chunk), e.state2.ended = true →
        ∀ p ∈ (readNext opts e q1 q2).pulls, p.1 = Src.s1) :=
  ⟨selectSource_both_live, selectSource_s2_ended, selectSource_s1_ended,
    selectSource_both_ended, readNext_pulls_not_ended, readNext_waiting,
    fun opts hinc e q1 q2 => readNext_ended1 opts hinc e q1 q2,
    fun opts hinc e q1 q2 => readNext_ended2 opts hinc e q1 q2⟩

/-- Witness for C4: a concrete two-chunk schedule.  Stream2 starts with
less data, so the first pull targets stream2; once parity is reached the
tie goes to stream1; with both queues exhausted the loop waits on the
selected stream. -/
theorem c4_least_read_scheduling_witness :
    selectSource { totalDataLen := 5 } { totalDataLen := 3 } = some Src.s2 ∧
    selectSource { totalDataLen := 3 } { totalDataLen := 3 } = some Src.s1 ∧
    selectSource { ended := true } { totalDataLen := 7 } = some Src.s2 ∧
    (∀ p ∈ (readNext { compare := deepEqualCmp } {}
        [.str ['a']] [.str ['b']]).pulls, p.2 = false) ∧
    (∀ p ∈ (readNext { compare := deepEqualCmp }
        { state1 := { ended := true } } [.str ['a']] [.str ['b']]).pulls,
        p.1 = Src.s2) :=
  ⟨by
    have h := c4_least_read_scheduling.1 { totalDataLen := 5 }
      { totalDataLen := 3 } rfl rfl
    simpa using h,
    c4_least_read_scheduling.1 { totalDataLen := 3 } { totalDataLen := 3 }
      rfl rfl,
    c4_least_read_scheduling.2.2.1 { ended := true } { totalDataLen := 7 }
      rfl rfl,
    c4_least_read_scheduling.2.2.2.2.1 { compare := deepEqualCmp } {}
      [.str ['a']] [.str ['b']],
    c4_least_read_scheduling.2.2.2.2.2.2.1 { compare := deepEqualCmp } rfl
      { state1 := { ended := true } } [.str ['a']] [.str ['b']] rfl⟩

/-- Options of the C7 scenario: flowing reads compared with the
deep-equality comparator, outside objectMode. -/
def c7Opts : EngineOpts :=
  { compare := deepEqualCmp, readPolicy := .flowing }

/-- The C7 trace: a Buffer chunk to source1, a string chunk to source2,
then both sources end and the scheduled final compare fires. -/
def c7Trace : List SrcEvent :=
  [.dataEvt .s1 (.buf [104]), .dataEvt .s2 (.str ['h']),
    .endEvt .s1, .endEvt .s2, .tick]

/-- The assertion message of the C7 scenario. -/
def c7Msg : String := "AssertionError: Buffer deepStrictEqual String"

/-- Claim C7: any data-shape error while accumulating a chunk immediately
resolves the whole comparison with that error, bypassing further comparator
calls (the outcome does not depend on the configured incremental
comparator); and feeding a Buffer chunk to one source and a string chunk to
the other outside objectMode, under a deep-equality comparator, yields a
single rejection whose error reports the type mismatch — never a
successful resolution. -/
theorem c7_type_mismatch_fatal :
    (∀ (opts : EngineOpts) (e : Engine) (i : Src) (d : Chunk)
        (err : AddDataError),
        addData opts.objectMode (e.stateOf i) d = .error err →
        handleData opts e i d =
          done { e with emissions := e.emissions ++ [.errorE (.typeErr err)] } ∧
        ∀ x, handleData { opts with incremental := x } e i d =
          handleData opts e i d) ∧
    ((run c7Opts {} c7Trace).emissions =
        [.errorE (.jsv (.vStr c7Msg)), .endE] ∧
      settlements (run c7Opts {} c7Trace) = 1 ∧
      callbackCalls (run c7Opts {} c7Trace).emissions =
        [.failure (.raw (.jsv (.vStr c7Msg)))] ∧
      (∀ v, Emission.dataE v ∉ (run c7Opts {} c7Trace).emissions) ∧
      MentionsName c7Msg "Buffer" ∧ MentionsName c7Msg "String") := by
  constructor
  · intro opts e i d err h
    constructor
    · simp [handleData, h]
    · intro x
      simp [handleData, h]
  · refine ⟨rfl, rfl, rfl, ?_, ?_, ?_⟩
    · intro v hv
      have : (run c7Opts {} c7Trace).emissions =
          [.errorE (.jsv (.vStr c7Msg)), .endE] := rfl
      rw [this] at hv
      simp at hv
    · exact ⟨"AssertionError: ".data, " deepStrictEqual String".data, rfl⟩
    · exact ⟨"AssertionError: Buffer deepStrictEqual ".data, [], rfl⟩

/-- Witness for C7: a string chunk after a Buffer chunk on the same state
raises the mismatch TypeError and finishes the comparison at once, with or
without an incremental comparator. -/
theorem c7_type_mismatch_fatal_witness :
    handleData { compare := deepEqualCmp }
        { state1 := { data := .buf [104], totalDataLen := 1 } } .s1
        (.str ['h']) =
      done { state1 := { data := .buf [104], totalDataLen := 1 }
             emissions := [.errorE (.typeErr .typeMismatch)] } ∧
    ∀ x, handleData { compare := deepEqualCmp, incremental := x }
        { state1 := { data := .buf [104], totalDataLen := 1 } } .s1
        (.str ['h']) =
      handleData { compare := deepEqualCmp }
        { state1 := { data := .buf [104], totalDataLen := 1 } } .s1
        (.str ['h']) :=
  c7_type_mismatch_fatal.1 { compare := deepEqualCmp }
    { state1 := { data := .buf [104], totalDataLen := 1 } } .s1
    (.str ['h']) .typeMismatch rfl

/-- The always-agreeing data-equality function (returns the absent value on
every pair). -/
def agreeCmp : StateData → StateData → COutcome := fun _ _ => .ret .vUndefined

/-- The always-agreeing events-equality function. -/
def agreeEvCmp : List EventRecord → List EventRecord → COutcome :=
  fun _ _ => .ret .vUndefined

/-- A final comparator that reports whether both data logs are empty when
it runs. -/
def probeEmpty : Comparator := fun s1 s2 =>
  (.ret (.vBool (decide (s1.data = .arr [] ∧ s2.data = .arr []))), s1, s2)

/-- Options of the C6 scenario: objectMode flowing reads, incremental built
by `makeIncremental` from an always-agreeing equality function, and a final
comparator probing for emptied data. -/
def c6Opts : EngineOpts :=
  { compare := probeEmpty
    incremental := some (makeIncremental (some agreeCmp) Option.none)
    objectMode := true
    readPolicy := .flowing }

/-- The C6 trace: the same two chunks fed to both sources, then both end. -/
def c6Trace : List SrcEvent :=
  [.dataEvt .s1 (.other (.vNum 1)), .dataEvt .s2 (.other (.vNum 1)),
    .dataEvt .s1 (.other (.vNum 2)), .dataEvt .s2 (.other (.vNum 2)),
    .endEvt .s1, .endEvt .s2]

/-- `incrementalProp` with an always-absent comparison function truncates
both states down to the remainder beyond the common length. -/
theorem incrementalPropData_agree (cmp : StateData → StateData → COutcome)
    (s1 s2 : StreamState) (hc : ∀ a b, cmp a b = .ret .vUndefined)
    (h1 : (sdHasItems s1.data || s1.ended) = true)
    (h2 : (sdHasItems s2.data || s2.ended) = true)
    (hm : 0 < min (sdLen s1.data) (sdLen s2.data)) :
    incrementalPropData cmp s1 s2 =
      (.ret .vUndefined,
        { s1 with data := sdDrop (min (sdLen s1.data) (sdLen s2.data)) s1.data },
        { s2 with data := sdDrop (min (sdLen s1.data) (sdLen s2.data)) s2.data }) := by
  simp [incrementalPropData, h1, h2, hc, hm]

/-- `incrementalProp` on the events log with an always-absent comparison
function truncates both event logs by the common length. -/
theorem incrementalPropEvents_agree
    (cmp : List EventRecord → List EventRecord → COutcome)
    (s1 s2 : StreamState) (hc : ∀ a b, cmp a b = .ret .vUndefined)
    (hn : 0 < min s1.events.length s2.events.length) :
    incrementalPropEvents cmp s1 s2 =
      (.ret .vUndefined,
        { s1 with events := s1.events.drop (min s1.events.length s2.events.length) },
        { s2 with events := s2.events.drop (min s1.events.length s2.events.length) }) := by
  have h1 : s1.events.isEmpty = false := by
    rcases Nat.lt_min.mp hn with ⟨ha, _⟩
    simp [List.isEmpty_iff]
    exact List.ne_nil_of_length_pos ha
  have h2 : s2.events.isEmpty = false := by
    rcases Nat.lt_min.mp hn with ⟨_, hb⟩
    simp [List.isEmpty_iff]
    exact List.ne_nil_of_length_pos hb
  simp [incrementalPropEvents, h1, h2, hc, hn]

/-- Claim C6: the incremental comparator built by `makeIncremental`, when
the equality function returns the absent value on comparable slices of
nonzero common length, truncates the data of both states (and the events,
when an events-equality function is given) down to the remainder beyond the
common length; consequently, with an always-agreeing equality function and
identical inputs, both data logs are empty (and the final comparator
observes them empty) even though nonzero data was observed. -/
theorem c6_makeIncremental_truncates :
    (∀ (cmp : StateData → StateData → COutcome) (s1 s2 : StreamState),
        (∀ a b, cmp a b = .ret .vUndefined) →
        (sdHasItems s1.data || s1.ended) = true →
        (sdHasItems s2.data || s2.ended) = true →
        0 < min (sdLen s1.data) (sdLen s2.data) →
        incrementalPropData cmp s1 s2 =
          (.ret .vUndefined,
            { s1 with
                data := sdDrop (min (sdLen s1.data) (sdLen s2.data)) s1.data },
            { s2 with
                data := sdDrop (min (sdLen s1.data) (sdLen s2.data)) s2.data })) ∧
    (∀ (cmpD : StateData → StateData → COutcome)
        (cmpE : List EventRecord → List EventRecord → COutcome)
        (s1 s2 : StreamState),
        (∀ a b, cmpD a b = .ret .vUndefined) →
        (∀ a b, cmpE a b = .ret .vUndefined) →
        (sdHasItems s1.data || s1.ended) = true →
        (sdHasItems s2.data || s2.ended) = true →
        0 < min (sdLen s1.data) (sdLen s2.data) →
        0 < min s1.events.length s2.events.length →
        makeIncremental (some cmpD) (some cmpE) s1 s2 =
          (.ret .vUndefined,
            { s1 with
                data := sdDrop (min (sdLen s1.data) (sdLen s2.data)) s1.data
                events :=
                  s1.events.drop (min s1.events.length s2.events.length) },
            { s2 with
                data := sdDrop (min (sdLen s1.data) (sdLen s2.data)) s2.data
                events :=
                  s2.events.drop (min s1.events.length s2.events.length) })) ∧
    ((run c6Opts {} c6Trace).state1.data = .arr [] ∧
      (run c6Opts {} c6Trace).state2.data = .arr [] ∧
      (run c6Opts {} c6Trace).state1.totalDataLen = 2 ∧
      (run c6Opts {} c6Trace).state2.totalDataLen = 2 ∧
      (run c6Opts {} c6Trace).pendingFinal = true ∧
      (run c6Opts {} c6Trace).isDone = false ∧
      (run c6Opts {} c6Trace).emissions = [] ∧
      (run c6Opts {} (c6Trace ++ [.tick])).emissions =
        [.dataE (.vBool true), .endE]) := by
  refine ⟨incrementalPropData_agree, ?_, rfl, rfl, rfl, rfl, rfl, rfl, rfl, rfl⟩
  intro cmpD cmpE s1 s2 hcD hcE h1 h2 hm hn
  have hd := incrementalPropData_agree cmpD s1 s2 hcD h1 h2 hm
  have he := incrementalPropEvents_agree cmpE
    { s1 with data := sdDrop (min (sdLen s1.data) (sdLen s2.data)) s1.data }
    { s2 with data := sdDrop (min (sdLen s1.data) (sdLen s2.data)) s2.data }
    hcE (by simpa using hn)
  simp only [makeIncremental, hd, he]
  rfl

/-- Witness for C6 at concrete truncation inputs. -/
theorem c6_makeIncremental_truncates_witness :
    incrementalPropData agreeCmp
        { data := .arr [.other (.vNum 1), .other (.vNum 2)], totalDataLen := 2 }
        { data := .arr [.other (.vNum 1)], totalDataLen := 1 } =
      (.ret .vUndefined,
        { data := .arr [.other (.vNum 2)], totalDataLen := 2 },
        { data := .arr [], totalDataLen := 1 }) ∧
    makeIncremental (some agreeCmp) (some agreeEvCmp)
        { data := .arr [.other (.vNum 1)], events := [⟨"close", []⟩],
          totalDataLen := 1 }
        { data := .arr [.other (.vNum 1)], events := [⟨"close", []⟩],
          totalDataLen := 1 } =
      (.ret .vUndefined,
        { data := .arr [], events := [], totalDataLen := 1 },
        { data := .arr [], events := [], totalDataLen := 1 }) :=
  ⟨c6_makeIncremental_truncates.1 agreeCmp
      { data := .arr [.other (.vNum 1), .other (.vNum 2)], totalDataLen := 2 }
      { data := .arr [.other (.vNum 1)], totalDataLen := 1 }
      (fun _ _ => rfl) rfl rfl (by decide),
    c6_makeIncremental_truncates.2.1 agreeCmp agreeEvCmp
      { data := .arr [.other (.vNum 1)], events := [⟨"close", []⟩],
        totalDataLen := 1 }
      { data := .arr [.other (.vNum 1)], events := [⟨"close", []⟩],
        totalDataLen := 1 }
      (fun _ _ => rfl) (fun _ _ => rfl) rfl rfl (by decide) (by decide)⟩

end StreamCompare
